import Mathlib

/-!
Verification of the `overrides` decorator library (file `overrides/overrides.py`)
against its natural-language specification.

The development shallowly embeds the four functions the claims are about:

* `_get_base_class_names` — the bytecode scanner that reconstructs the dotted
  base-class expressions of the enclosing `class` statement from the already
  executed instructions of the class body's frame;
* `_get_base_class` — the resolver that turns one dotted path into a live
  object using the frame's name bindings (with a builtins fallback);
* `_overrides` — the decorator body: stamps the override marker, walks the
  resolved base classes, validates against the first one exposing a
  same-named attribute, and raises when none does;
* `_validate_method` — the per-target validation: final-marker check,
  docstring copy, and the conditional signature-compatibility check.

Python side effects (attribute mutation on the method object) are made
explicit by returning the method object's final state next to the outcome;
exceptions are modelled with `Except`.  The signature-compatibility verdict
of `overrides/signature.py` (not part of the sources under study) is
abstracted as a Boolean oracle `sigOK`: the claims here only concern
whether and when that check is invoked, never its verdict.
-/

namespace Overrides

/-! ## Bytecode instruction model

An instruction carries its byte offset, its opcode name and the resolved
argument value (`dis.Instruction.offset`, `.opname`, `.argval`).  The source
filters on `instruction.opcode not in dis.hasname`; `hasnameOp` models
CPython's `dis.hasname` set, the opcodes that index the code object's name
table.  Free-variable accesses (`LOAD_DEREF`, `STORE_DEREF`, `DELETE_DEREF`,
`LOAD_CLASSDEREF`, `LOAD_CLOSURE`) index the cell/free-variable table and
belong to `dis.hasfree`, never to `dis.hasname`. -/

/-- Model of Python's `str.startswith`: the first `len(pre)` characters of
`s` equal `pre`. -/
def strStartsWith (s pre : String) : Bool :=
  s.toList.take pre.toList.length == pre.toList

/-- Model of Python's `str.endswith`: the last `len(suf)` characters of `s`
equal `suf`. -/
def strEndsWith (s suf : String) : Bool :=
  s.toList.reverse.take suf.toList.length == suf.toList.reverse

structure Instr where
  offset : Nat
  opname : String
  argval : String
deriving DecidableEq, Repr

/-- Membership of an opcode name in CPython's `dis.hasname` list (the opcodes
that take an index into the names table of the code object). -/
def hasnameOp (op : String) : Bool :=
  [ "STORE_NAME", "DELETE_NAME", "STORE_ATTR", "DELETE_ATTR",
    "STORE_GLOBAL", "DELETE_GLOBAL", "LOAD_NAME", "LOAD_ATTR",
    "LOAD_GLOBAL", "IMPORT_NAME", "IMPORT_FROM", "LOAD_METHOD" ].contains op

/-- Tag of a call-site token: `("name", s)` or `("attr", s)` in the source. -/
inductive TokTag where
  | name
  | attr
deriving DecidableEq, Repr

abbrev Tok := TokTag × String

/-- First loop of `_get_base_class_names`: walk the instruction stream,
stopping at the first instruction past `frame.f_lasti`, skipping instructions
whose opcode is not in `dis.hasname`, and accumulate `("name", argval)` /
`("attr", argval)` tokens.  `exts` is the `extends` accumulator and `als` the
`add_last_step` flag: when `als` is false, the next name-table instruction
first clears the whole accumulator (`extends = []`) and resets the flag. -/
def scanLoop (lasti : Nat) : List Instr → List Tok → Bool → List Tok
  | [], exts, _ => exts
  | i :: rest, exts, als =>
    if lasti < i.offset then exts
    else if hasnameOp i.opname then
      let exts2 := if als then exts else []
      if i.opname = "LOAD_NAME" then
        scanLoop lasti rest (exts2 ++ [(TokTag.name, i.argval)]) true
      else if i.opname = "LOAD_ATTR" then
        scanLoop lasti rest (exts2 ++ [(TokTag.attr, i.argval)]) true
      else if i.opname = "LOAD_GLOBAL" then
        scanLoop lasti rest (exts2 ++ [(TokTag.name, i.argval)]) true
      else
        scanLoop lasti rest exts2 false
    else scanLoop lasti rest exts als

/-- The `if previous_item: items.append(previous_item)` idiom: append the
pending path only when it is non-empty. -/
def flushInto (items : List (List String)) (prev : List String) :
    List (List String) :=
  match prev with
  | [] => items
  | p => items ++ [p]

/-- Second loop of `_get_base_class_names`: group the token list into dotted
paths.  A name token flushes the pending `previous_item` (when non-empty) and
starts a fresh one; an attr token extends the pending one; at the end the
pending item is flushed when non-empty. -/
def groupLoop : List Tok → List String → List (List String) →
    List (List String)
  | [], prev, items => flushInto items prev
  | (TokTag.name, s) :: rest, prev, items =>
      groupLoop rest [s] (flushInto items prev)
  | (TokTag.attr, s) :: rest, prev, items =>
      groupLoop rest (prev ++ [s]) items

/-- Embedding of `_get_base_class_names(frame)`: the frame is represented by
its instruction list and its `f_lasti` instruction pointer. -/
def _get_base_class_names (lasti : Nat) (instrs : List Instr) :
    List (List String) :=
  groupLoop (scanLoop lasti instrs [] true) [] []

/-! ## Spec-side scanner (for refinement comparison only)

The following definitions transcribe the specification's description of the
scanner, to be compared with `_get_base_class_names` above; they are not part
of the embedding of the source. -/

/-- Transcribed from the spec: an instruction that "loads a bare identifier
by name (local, global, or free-variable load)". -/
def specIsBareIdentifierLoad (i : Instr) : Bool :=
  [ "LOAD_NAME", "LOAD_GLOBAL", "LOAD_DEREF", "LOAD_CLASSDEREF" ].contains
    i.opname

/-- Transcribed from the spec: one step of the described automaton over a
state (completed paths, open path, confirmed flag).  A bare-identifier load
flushes the open path and starts a new confirmed one; an attribute load
appends to the open path; any other name-referencing instruction flushes the
open path when confirmed and discards it otherwise, resetting the flag;
instructions that do not reference a name are ignored. -/
def specScanStep (st : List (List String) × List String × Bool) (i : Instr) :
    List (List String) × List String × Bool :=
  if specIsBareIdentifierLoad i then
    (flushInto st.1 st.2.1, [i.argval], true)
  else if i.opname = "LOAD_ATTR" then
    (st.1, st.2.1 ++ [i.argval], st.2.2)
  else if hasnameOp i.opname then
    (if st.2.2 then flushInto st.1 st.2.1 else st.1, [], false)
  else st

/-- Transcribed from the spec: run the described automaton over the executed
prefix of the instruction stream and flush the final open path. -/
def specScanItems (lasti : Nat) (instrs : List Instr) : List (List String) :=
  let st := (instrs.takeWhile (fun i => decide (i.offset ≤ lasti))).foldl
    specScanStep ([], [], true)
  flushInto st.1 st.2.1

/-- Transcribed from the spec: a dunder name, i.e. a name with leading and
trailing double underscores such as `__init__`. -/
def specIsDunderName (s : String) : Bool :=
  strStartsWith s "__" && strEndsWith s "__"

/-! ## Object graph and `_get_base_class`

Python objects are modelled as nodes of a finite attribute graph: `getattrG`
is `getattr`/`hasattr` restricted to the edges present.  A namespace maps
identifiers to objects and carries a `__builtins__` entry that is either
mapping-shaped (a dict) or object-shaped (a module). -/

structure ObjGraph where
  edges : List ((Nat × String) × Nat)

/-- Attribute lookup on the object graph: `some` when `hasattr` holds. -/
def getattrG (g : ObjGraph) (o : Nat) (a : String) : Option Nat :=
  List.lookup (o, a) g.edges

/-- The `__builtins__` entry of a module namespace: either a dict or the
builtins module object. -/
inductive Builtins where
  | dict (entries : List (String × Nat))
  | moduleObj (o : Nat)

structure Namespace where
  vars : List (String × Nat)
  builtins : Builtins

/-- Python exceptions distinguishable in `_get_base_class`. -/
inductive PyExn where
  | indexError
  | keyError
  | attributeError
deriving DecidableEq, Repr

/-- Loop of `_get_base_class` over `components[1:]`: follow each trailing
segment when the current object has it as an attribute, and silently skip the
segment otherwise. -/
def resolveTail (g : ObjGraph) (o : Nat) : List String → Nat
  | [] => o
  | c :: rest =>
    match getattrG g o c with
    | some o2 => resolveTail g o2 rest
    | none => resolveTail g o rest

/-- Head resolution of `_get_base_class`: `namespace[components[0]]`, caught
`KeyError` falling back to the dict-shaped (`namespace["__builtins__"][...]`,
may raise `KeyError`) or object-shaped (`getattr(namespace["__builtins__"],
...)`, may raise `AttributeError`) builtins container. -/
def resolveFirst (g : ObjGraph) (ns : Namespace) (c0 : String) :
    Except PyExn Nat :=
  match List.lookup c0 ns.vars with
  | some o => Except.ok o
  | none =>
    match ns.builtins with
    | Builtins.dict entries =>
      match List.lookup c0 entries with
      | some o => Except.ok o
      | none => Except.error PyExn.keyError
    | Builtins.moduleObj b =>
      match getattrG g b c0 with
      | some o => Except.ok o
      | none => Except.error PyExn.attributeError

/-- Embedding of `_get_base_class(components, namespace)`; accessing
`components[0]` on an empty list is the `IndexError` case. -/
def _get_base_class (g : ObjGraph) (components : List String)
    (ns : Namespace) : Except PyExn Nat :=
  match components with
  | [] => Except.error PyExn.indexError
  | c0 :: rest => (resolveFirst g ns c0).map (fun o => resolveTail g o rest)

/-! ## Methods, classes and the decorator body -/

/-- The decorated method object: its `__name__`, `__qualname__`, `__doc__`
and the `__override__` marker attribute. -/
structure Method where
  name : String
  qualname : String
  doc : Option String
  override_flag : Bool
deriving DecidableEq, Repr

/-- A super-class attribute as seen by `_validate_method`: its `__final__`
marker, its `__doc__`, whether it is a `property`, and whether
`inspect.getattr_static` finds a `staticmethod`. -/
structure SuperMethod where
  final_flag : Bool
  doc : Option String
  isProperty : Bool
  isStatic : Bool
deriving DecidableEq, Repr

/-- A resolved base class: its display name and its attribute table. -/
structure SuperClass where
  name : String
  attrs : List (String × SuperMethod)
deriving DecidableEq, Repr

/-- The `getattr(super_class, name)` lookup, `some` exactly when
`hasattr(super_class, name)` holds. -/
def lookupAttr (sc : SuperClass) (n : String) : Option SuperMethod :=
  List.lookup n sc.attrs

/-- Embedding of `hasattr(super_class, method.__name__)`. -/
def hasattrB (sc : SuperClass) (n : String) : Bool :=
  (lookupAttr sc n).isSome

/-- Python truthiness of `method.__doc__`: true only for a non-empty string
(`if not method.__doc__:` copies on `None` and on `""`). -/
def docTruthy : Option String → Bool
  | none => false
  | some s => !(s == "")

/-- Errors raised by the decorator: the finalized-method `TypeError` (naming
the method and the sealing class), the signature-incompatibility error of
`ensure_signature_is_compatible`, the no-super-class-method `TypeError`
(naming the method's qualname), and the `AttributeError` of a failing
`getattr`. -/
inductive OvError where
  | finalized (methodName className : String)
  | signature
  | noSuperMethod (qualname : String)
  | attributeError
deriving DecidableEq, Repr

/-- Result of one `_validate_method` call: the method object's state after
the call (its mutations persist even when the call raises), the outcome, and
whether `ensure_signature_is_compatible` was invoked. -/
structure VResult where
  method : Method
  outcome : Except OvError Unit
  sigChecked : Bool
deriving Repr

/-- Embedding of `_validate_method(method, super_class, check_signature)`.
The verdict of `ensure_signature_is_compatible` is the oracle `sigOK`. -/
def _validate_method (m : Method) (sc : SuperClass) (check_signature : Bool)
    (sigOK : Bool) : VResult :=
  match lookupAttr sc m.name with
  | none => ⟨m, Except.error OvError.attributeError, false⟩
  | some sm =>
    if sm.final_flag then
      ⟨m, Except.error (OvError.finalized m.name sc.name), false⟩
    else
      let m2 := if docTruthy m.doc then m else { m with doc := sm.doc }
      if check_signature && !(strStartsWith m2.name "__") && !sm.isProperty then
        if sigOK then ⟨m2, Except.ok (), true⟩
        else ⟨m2, Except.error OvError.signature, true⟩
      else ⟨m2, Except.ok (), false⟩

/-- What `_overrides` returns on success: the method object itself, or the
`functools.wraps` closure capturing the method, the matched super class and
the `check_signature` flag. -/
inductive OvResult where
  | plain (m : Method)
  | wrapper (m : Method) (sc : SuperClass) (check_signature : Bool)
deriving DecidableEq, Repr

/-- Outcome of `_overrides`: the decorated method object's final state (its
mutations persist even when the call raises) next to the result. -/
structure OvOutcome where
  method : Method
  result : Except OvError OvResult
deriving Repr

/-- The `setattr(method, "__override__", True)` stamp. -/
def setOverrideMarker (m : Method) : Method :=
  { m with override_flag := true }

/-- Loop of `_overrides` over the resolved base classes: the first class with
a same-named attribute is the target; with `check_at_runtime` the wrapper is
returned without validating, otherwise validation runs and the method itself
is returned; when no class matches, the no-super-class-method error is
raised. -/
def overridesLoop (m : Method) (check_signature check_at_runtime : Bool)
    (sigOK : Bool) : List SuperClass → OvOutcome
  | [] => ⟨m, Except.error (OvError.noSuperMethod m.qualname)⟩
  | sc :: rest =>
    if hasattrB sc m.name then
      if check_at_runtime then
        ⟨m, Except.ok (OvResult.wrapper m sc check_signature)⟩
      else
        let v := _validate_method m sc check_signature sigOK
        match v.outcome with
        | Except.error e => ⟨v.method, Except.error e⟩
        | Except.ok _ => ⟨v.method, Except.ok (OvResult.plain v.method)⟩
    else overridesLoop m check_signature check_at_runtime sigOK rest

/-- Embedding of `_overrides(method, check_signature, check_at_runtime)`:
stamp the marker first, then walk the base classes resolved from the caller's
frame (passed here as `bases`). -/
def _overrides (m : Method) (check_signature check_at_runtime : Bool)
    (bases : List SuperClass) (sigOK : Bool) : OvOutcome :=
  overridesLoop (setOverrideMarker m) check_signature check_at_runtime sigOK
    bases

/-- Semantics of one invocation of the `check_at_runtime` wrapper closure:
re-run `_validate_method` on the captured method, super class and flag, and
delegate to the wrapped method when validation passes. -/
def wrapperCall (m : Method) (sc : SuperClass) (check_signature : Bool)
    (sigOK : Bool) : Except OvError Method :=
  match (_validate_method m sc check_signature sigOK).outcome with
  | Except.error e => Except.error e
  | Except.ok _ => Except.ok m

end Overrides

namespace Overrides

theorem aux_validate_flag (m : Method) (sc : SuperClass) (cs sOK : Bool) :
    ((_validate_method m sc cs sOK).method).override_flag = m.override_flag := by
  unfold _validate_method
  cases hl : lookupAttr sc m.name with
  | none => rfl
  | some sm =>
    dsimp only
    by_cases hf : sm.final_flag
    · simp [hf]
    · rw [if_neg hf]
      split <;> split <;> first | rfl | (split <;> rfl)

theorem aux_validate_ne_noSuper (m : Method) (sc : SuperClass) (cs sOK : Bool)
    (q : String) :
    (_validate_method m sc cs sOK).outcome ≠ Except.error (OvError.noSuperMethod q) := by
  unfold _validate_method
  cases hl : lookupAttr sc m.name with
  | none => simp
  | some sm =>
    dsimp only
    by_cases hf : sm.final_flag
    · simp [hf]
    · rw [if_neg hf]
      split <;> split <;> (try split) <;> simp

end Overrides

namespace Overrides

theorem aux_loop_noSuper_iff (m : Method) (cs car sOK : Bool)
    (bases : List SuperClass) :
    (overridesLoop m cs car sOK bases).result
        = Except.error (OvError.noSuperMethod m.qualname)
      ↔ ∀ sc ∈ bases, hasattrB sc m.name = false := by
  induction bases with
  | nil => simp [overridesLoop]
  | cons sc rest ih =>
    by_cases h : hasattrB sc m.name
    · have hne : (overridesLoop m cs car sOK (sc :: rest)).result
          ≠ Except.error (OvError.noSuperMethod m.qualname) := by
        simp only [overridesLoop, h, if_true]
        by_cases hcar : car
        · simp [hcar]
        · simp only [hcar, Bool.false_eq_true, if_false]
          cases hv : (_validate_method m sc cs sOK).outcome with
          | error e =>
            dsimp only
            intro hc
            injection hc with hc2
            subst hc2
            exact aux_validate_ne_noSuper m sc cs sOK m.qualname hv
          | ok u => dsimp only; simp
      constructor
      · intro hres
        exact (hne hres).elim
      · intro hall
        exact absurd (hall sc (List.mem_cons_self sc rest)) (by simp [h])
    · simp only [overridesLoop, h, Bool.false_eq_true, if_false]
      rw [ih]
      simp [List.forall_mem_cons, h]

theorem aux_loop_flag (m : Method) (cs car sOK : Bool) (bases : List SuperClass) :
    ((overridesLoop m cs car sOK bases).method).override_flag = m.override_flag := by
  induction bases with
  | nil => rfl
  | cons sc rest ih =>
    by_cases h : hasattrB sc m.name
    · simp only [overridesLoop, h, if_true]
      by_cases hcar : car
      · simp [hcar]
      · simp only [hcar, Bool.false_eq_true, if_false]
        cases hv : (_validate_method m sc cs sOK).outcome with
        | error e =>
          dsimp only
          exact aux_validate_flag m sc cs sOK
        | ok u =>
          dsimp only
          exact aux_validate_flag m sc cs sOK
    · simp only [overridesLoop, h, Bool.false_eq_true, if_false]
      exact ih

end Overrides

namespace Overrides

/-- Claim C1: the decorator raises the no-matching-super-class-method error
exactly when none of the resolved base classes defines an attribute named
like the decorated method (in particular when the base-class list is empty),
and only in that case. -/
theorem overrides_noSuperMethod_iff_no_base_has_attr
    (m : Method) (cs car sOK : Bool) (bases : List SuperClass) :
    (_overrides m cs car bases sOK).result
        = Except.error (OvError.noSuperMethod m.qualname)
      ↔ ∀ sc ∈ bases, hasattrB sc m.name = false := by
  have h := aux_loop_noSuper_iff (setOverrideMarker m) cs car sOK bases
  simpa [setOverrideMarker, _overrides] using h

/-- Witness for C1 at a concrete input: one base class with no attributes. -/
theorem overrides_noSuperMethod_iff_no_base_has_attr_witness :
    (_overrides ⟨"m", "S.m", none, false⟩ true false [⟨"X", []⟩] true).result
      = Except.error (OvError.noSuperMethod "S.m") :=
  (overrides_noSuperMethod_iff_no_base_has_attr
    ⟨"m", "S.m", none, false⟩ true false true [⟨"X", []⟩]).mpr (by decide)

/-- Claim C2: a final (sealed) override target makes validation fail with the
finalized-method error naming the method and the sealing class, before the
signature check and regardless of `check_signature` or of signature
compatibility. -/
theorem validate_final_target_fails_finalized
    (m : Method) (sc : SuperClass) (cs sOK : Bool) (sm : SuperMethod)
    (hl : lookupAttr sc m.name = some sm) (hf : sm.final_flag = true) :
    (_validate_method m sc cs sOK).outcome
        = Except.error (OvError.finalized m.name sc.name)
      ∧ (_validate_method m sc cs sOK).sigChecked = false
      ∧ (_validate_method m sc cs sOK).method = m := by
  unfold _validate_method
  rw [hl]
  simp [hf]

/-- Witness for C2 at a concrete input: a sealed target, with the signature
check requested and an incompatible-signature oracle. -/
theorem validate_final_target_fails_finalized_witness :
    (_validate_method ⟨"m", "S.m", none, false⟩
        ⟨"B", [("m", ⟨true, none, false, false⟩)]⟩ true false).outcome
        = Except.error (OvError.finalized "m" "B")
      ∧ (_validate_method ⟨"m", "S.m", none, false⟩
        ⟨"B", [("m", ⟨true, none, false, false⟩)]⟩ true false).sigChecked = false
      ∧ (_validate_method ⟨"m", "S.m", none, false⟩
        ⟨"B", [("m", ⟨true, none, false, false⟩)]⟩ true false).method
        = ⟨"m", "S.m", none, false⟩ :=
  validate_final_target_fails_finalized ⟨"m", "S.m", none, false⟩
    ⟨"B", [("m", ⟨true, none, false, false⟩)]⟩ true false
    ⟨true, none, false, false⟩ rfl rfl

end Overrides

namespace Overrides

theorem aux_validate_doc
    (m : Method) (sc : SuperClass) (cs sOK : Bool) (sm : SuperMethod)
    (hl : lookupAttr sc m.name = some sm) (hf : sm.final_flag = false) :
    (docTruthy m.doc = false →
        ((_validate_method m sc cs sOK).method).doc = sm.doc)
      ∧ (docTruthy m.doc = true →
        ((_validate_method m sc cs sOK).method).doc = m.doc) := by
  unfold _validate_method
  rw [hl]
  dsimp only
  rw [if_neg (by simp [hf])]
  constructor <;> intro hd <;> simp only [hd, Bool.false_eq_true, if_false, if_true] <;>
    split <;> (try split) <;> rfl

/-- Claim C8: when the decorated method's own docstring is falsy (absent or
empty) the target's docstring is copied onto it, and a non-empty docstring is
left unchanged. -/
theorem doc_copied_iff_method_doc_falsy
    (m : Method) (sc : SuperClass) (cs sOK : Bool) (sm : SuperMethod)
    (hl : lookupAttr sc m.name = some sm) (hf : sm.final_flag = false) :
    (docTruthy m.doc = false →
        ((_validate_method m sc cs sOK).method).doc = sm.doc)
      ∧ (docTruthy m.doc = true →
        ((_validate_method m sc cs sOK).method).doc = m.doc) :=
  aux_validate_doc m sc cs sOK sm hl hf

/-- Witness for C8 at concrete inputs: a docstring-less method receives the
target's docstring, a documented method keeps its own. -/
theorem doc_copied_iff_method_doc_falsy_witness :
    ((_validate_method ⟨"m", "S.m", none, false⟩
        ⟨"B", [("m", ⟨false, some "base doc", false, false⟩)]⟩ true true).method).doc
        = some "base doc"
      ∧ ((_validate_method ⟨"m", "S.m", some "own", false⟩
        ⟨"B", [("m", ⟨false, some "base doc", false, false⟩)]⟩ true true).method).doc
        = some "own" :=
  ⟨(doc_copied_iff_method_doc_falsy ⟨"m", "S.m", none, false⟩
      ⟨"B", [("m", ⟨false, some "base doc", false, false⟩)]⟩ true true
      ⟨false, some "base doc", false, false⟩ rfl rfl).1 rfl,
   (doc_copied_iff_method_doc_falsy ⟨"m", "S.m", some "own", false⟩
      ⟨"B", [("m", ⟨false, some "base doc", false, false⟩)]⟩ true true
      ⟨false, some "base doc", false, false⟩ rfl rfl).2 rfl⟩

/-- Claim C7 (amended): with a found, non-final target, the signature check
runs exactly when `check_signature` is true, the method's name does not start
with a double underscore, and the target is not a property. -/
theorem signature_check_runs_iff_conditions
    (m : Method) (sc : SuperClass) (cs sOK : Bool) (sm : SuperMethod)
    (hl : lookupAttr sc m.name = some sm) (hf : sm.final_flag = false) :
    (_validate_method m sc cs sOK).sigChecked = true
      ↔ (cs = true ∧ strStartsWith m.name "__" = false
          ∧ sm.isProperty = false) := by
  unfold _validate_method
  rw [hl]
  dsimp only
  rw [if_neg (by simp [hf])]
  have hname : ((if docTruthy m.doc then m else { m with doc := sm.doc }) : Method).name
      = m.name := by
    split <;> rfl
  by_cases hc : (cs && !strStartsWith m.name "__" && !sm.isProperty) = true
  · rw [if_pos (by simpa [hname] using hc)]
    simp only [Bool.and_eq_true, Bool.not_eq_true'] at hc
    split <;> simp [hc.1.1, hc.1.2, hc.2]
  · rw [if_neg (by simpa [hname] using hc)]
    simp only [Bool.and_eq_true, Bool.not_eq_true'] at hc
    simp only [VResult.sigChecked]
    constructor
    · intro hfalse
      cases hfalse
    · intro hrhs
      exact absurd ⟨⟨hrhs.1, hrhs.2.1⟩, hrhs.2.2⟩ hc

/-- Witness for C7's amended statement at a concrete input where the check
runs. -/
theorem signature_check_runs_iff_conditions_witness :
    (_validate_method ⟨"m", "S.m", none, false⟩
        ⟨"B", [("m", ⟨false, none, false, false⟩)]⟩ true true).sigChecked = true :=
  (signature_check_runs_iff_conditions ⟨"m", "S.m", none, false⟩
      ⟨"B", [("m", ⟨false, none, false, false⟩)]⟩ true true
      ⟨false, none, false, false⟩ rfl rfl).mpr ⟨rfl, by decide, rfl⟩

/-- Counterexample to C7 as stated: the method name `__helper` is not a
dunder name, `check_signature` is true and the target is a found, non-final
non-property, yet the signature check is not invoked (the source skips every
name merely starting with a double underscore). -/
theorem signature_check_skipped_for_private_nondunder_name :
    specIsDunderName "__helper" = false
      ∧ lookupAttr ⟨"B", [("__helper", ⟨false, none, false, false⟩)]⟩ "__helper"
          = some ⟨false, none, false, false⟩
      ∧ (SuperMethod.isProperty ⟨false, none, false, false⟩ = false
          ∧ SuperMethod.final_flag ⟨false, none, false, false⟩ = false)
      ∧ (_validate_method ⟨"__helper", "S.__helper", none, false⟩
          ⟨"B", [("__helper", ⟨false, none, false, false⟩)]⟩ true true).sigChecked
          = false
      ∧ (_validate_method ⟨"__helper", "S.__helper", none, false⟩
          ⟨"B", [("__helper", ⟨false, none, false, false⟩)]⟩ true true).outcome
          = Except.ok () := by
  refine ⟨by decide, rfl, ⟨rfl, rfl⟩, rfl, rfl⟩

end Overrides

namespace Overrides

/-- Claim C9: the `__override__` marker is stamped onto the method object
before the base classes are walked, so the method's final state carries the
marker whatever the outcome (including every failure); and a method whose
docstring was copied keeps the copied docstring in its final state even when
validation subsequently fails. -/
theorem override_marker_set_before_resolution_and_retained
    (m : Method) (cs car sOK : Bool) (bases : List SuperClass) :
    ((_overrides m cs car bases sOK).method).override_flag = true
      ∧ (∀ (m2 : Method) (sc : SuperClass) (cs2 sOK2 : Bool) (sm : SuperMethod),
          lookupAttr sc m2.name = some sm → sm.final_flag = false →
          docTruthy m2.doc = false →
          ((_validate_method m2 sc cs2 sOK2).method).doc = sm.doc) := by
  constructor
  · have h := aux_loop_flag (setOverrideMarker m) cs car sOK bases
    simpa [setOverrideMarker, _overrides] using h
  · intro m2 sc cs2 sOK2 sm hl hf hd
    exact (aux_validate_doc m2 sc cs2 sOK2 sm hl hf).1 hd

end Overrides

namespace Overrides

/-- Witness for C9 at a concrete input: a decoration that fails with a
signature error leaves the marker set and the copied docstring in place. -/
theorem override_marker_set_before_resolution_and_retained_witness :
    ((_overrides ⟨"m", "S.m", none, false⟩ true false
        [⟨"B", [("m", ⟨false, some "base doc", false, false⟩)]⟩] false).method).override_flag
        = true
      ∧ ((_validate_method ⟨"m", "S.m", none, true⟩
        ⟨"B", [("m", ⟨false, some "base doc", false, false⟩)]⟩ true false).method).doc
        = some "base doc" := by
  have h := override_marker_set_before_resolution_and_retained
    ⟨"m", "S.m", none, false⟩ true false false
    [⟨"B", [("m", ⟨false, some "base doc", false, false⟩)]⟩]
  exact ⟨h.1, h.2 ⟨"m", "S.m", none, true⟩
    ⟨"B", [("m", ⟨false, some "base doc", false, false⟩)]⟩ true false
    ⟨false, some "base doc", false, false⟩ rfl rfl rfl⟩

/-- Claim C6: with `check_at_runtime` the decorator returns the wrapping
closure without validating at decoration time (whatever the signature oracle
or the target's markers say), each wrapper invocation re-runs
`_validate_method` and delegates to the wrapped method on success; without
`check_at_runtime`, validation runs at decoration time and the method object
itself (never a wrapper) is returned. -/
theorem check_at_runtime_defers_validation_to_wrapper
    (m mw : Method) (cs cw sOK sOK2 : Bool) (sc : SuperClass)
    (rest : List SuperClass) (h : hasattrB sc m.name = true) :
    (_overrides m cs true (sc :: rest) sOK).result
        = Except.ok (OvResult.wrapper (setOverrideMarker m) sc cs)
      ∧ wrapperCall mw sc cw sOK2
        = (match (_validate_method mw sc cw sOK2).outcome with
            | Except.error e => Except.error e
            | Except.ok _ => Except.ok mw)
      ∧ (_overrides m cs false (sc :: rest) sOK).result
        = (match (_validate_method (setOverrideMarker m) sc cs sOK).outcome with
            | Except.error e => Except.error e
            | Except.ok _ => Except.ok (OvResult.plain
                ((_validate_method (setOverrideMarker m) sc cs sOK).method))) := by
  refine ⟨?_, rfl, ?_⟩
  · simp only [_overrides, overridesLoop]
    rw [if_pos (show hasattrB sc (setOverrideMarker m).name = true from h)]
    rfl
  · simp only [_overrides, overridesLoop]
    rw [if_pos (show hasattrB sc (setOverrideMarker m).name = true from h)]
    simp only [Bool.false_eq_true, if_false]
    cases hv : (_validate_method (setOverrideMarker m) sc cs sOK).outcome with
    | error e => simp [hv]
    | ok u => simp [hv]

/-- Witness for C6 at a concrete input: the wrapper is produced even though
the signature oracle rejects, and the deferred check then fails at call
time. -/
theorem check_at_runtime_defers_validation_to_wrapper_witness :
    (_overrides ⟨"m", "S.m", none, false⟩ true true
        [⟨"B", [("m", ⟨false, none, false, false⟩)]⟩] false).result
        = Except.ok (OvResult.wrapper (setOverrideMarker ⟨"m", "S.m", none, false⟩)
            ⟨"B", [("m", ⟨false, none, false, false⟩)]⟩ true)
      ∧ wrapperCall ⟨"m", "S.m", none, true⟩
          ⟨"B", [("m", ⟨false, none, false, false⟩)]⟩ true false
        = Except.error OvError.signature := by
  have h := check_at_runtime_defers_validation_to_wrapper
    ⟨"m", "S.m", none, false⟩ ⟨"m", "S.m", none, true⟩ true true false false
    ⟨"B", [("m", ⟨false, none, false, false⟩)]⟩ [] rfl
  exact ⟨h.1, h.2.1.trans rfl⟩

end Overrides

namespace Overrides

/-- Claim C5: once the first segment of a dotted path resolves (in the name
bindings or via the builtins fallback), `_get_base_class` never raises: it
returns the best-effort object, silently skipping each trailing segment the
intermediate object lacks and descending through each one it has. -/
theorem base_class_resolution_total_after_head
    (g : ObjGraph) (ns : Namespace) (c0 : String) (rest : List String)
    (o : Nat) (h : resolveFirst g ns c0 = Except.ok o) :
    _get_base_class g (c0 :: rest) ns = Except.ok (resolveTail g o rest)
      ∧ (∀ (o2 : Nat) (c : String) (cs2 : List String),
          getattrG g o2 c = none →
          resolveTail g o2 (c :: cs2) = resolveTail g o2 cs2)
      ∧ (∀ (o2 o3 : Nat) (c : String) (cs2 : List String),
          getattrG g o2 c = some o3 →
          resolveTail g o2 (c :: cs2) = resolveTail g o3 cs2) := by
  refine ⟨?_, ?_, ?_⟩
  · simp [_get_base_class, h, Except.map]
  · intro o2 c cs2 hn
    simp [resolveTail, hn]
  · intro o2 o3 c cs2 hs
    simp [resolveTail, hs]

/-- Witness for C5 on a concrete object graph: path `A.x.y` where `x` exists
and `y` is missing resolves without an error, skipping `y`. -/
theorem base_class_resolution_total_after_head_witness :
    _get_base_class ⟨[((1, "x"), 2)]⟩ ["A", "x", "y"] ⟨[("A", 1)], Builtins.dict []⟩
        = Except.ok (resolveTail ⟨[((1, "x"), 2)]⟩ 1 ["x", "y"])
      ∧ resolveTail ⟨[((1, "x"), 2)]⟩ 2 ["y"] = resolveTail ⟨[((1, "x"), 2)]⟩ 2 [] := by
  have h := base_class_resolution_total_after_head ⟨[((1, "x"), 2)]⟩
    ⟨[("A", 1)], Builtins.dict []⟩ "A" ["x", "y"] 1 rfl
  exact ⟨h.1, h.2.1 2 "y" [] rfl⟩

end Overrides

namespace Overrides

theorem aux_flush_nonempty (items : List (List String)) (prev : List String)
    (hi : ∀ q ∈ items, q ≠ []) :
    ∀ p ∈ flushInto items prev, p ≠ [] := by
  cases prev with
  | nil => simpa [flushInto] using hi
  | cons a l =>
    intro p hp
    simp only [flushInto, List.mem_append, List.mem_singleton] at hp
    cases hp with
    | inl hmem => exact hi p hmem
    | inr heq => simp [heq]

theorem aux_group_nonempty (toks : List Tok) (prev : List String)
    (items : List (List String)) (hi : ∀ q ∈ items, q ≠ []) :
    ∀ p ∈ groupLoop toks prev items, p ≠ [] := by
  induction toks generalizing prev items with
  | nil => exact aux_flush_nonempty items prev hi
  | cons t rest ih =>
    obtain ⟨tag, s⟩ := t
    cases tag with
    | name => exact ih [s] (flushInto items prev) (aux_flush_nonempty items prev hi)
    | attr => exact ih (prev ++ [s]) items hi

theorem aux_scan_all_skipped (lasti : Nat) (instrs : List Instr)
    (exts : List Tok) (als : Bool)
    (hall : ∀ i ∈ instrs, hasnameOp i.opname = false) :
    scanLoop lasti instrs exts als = exts := by
  induction instrs with
  | nil => rfl
  | cons i rest ih =>
    have h1 := hall i (List.mem_cons_self i rest)
    by_cases hlt : lasti < i.offset
    · simp [scanLoop, hlt]
    · simp only [scanLoop, hlt, if_false, h1, Bool.false_eq_true]
      exact ih (fun j hj => hall j (List.mem_cons_of_mem i hj))

theorem aux_resolveFirst_ne_index (g : ObjGraph) (ns : Namespace) (c0 : String) :
    resolveFirst g ns c0 ≠ Except.error PyExn.indexError := by
  unfold resolveFirst
  cases List.lookup c0 ns.vars with
  | some o => simp
  | none =>
    cases ns.builtins with
    | dict entries => cases he : List.lookup c0 entries <;> simp [he]
    | moduleObj b => cases he : getattrG g b c0 <;> simp [he]

/-- Claim C10: every dotted path the scanner produces is non-empty, an
instruction sequence with no name-table instructions yields an empty path
list, and consequently the resolver's access to a produced path's first
segment never hits the empty-path `IndexError`. -/
theorem scanner_paths_nonempty_and_empty_on_no_name_instructions
    (lasti : Nat) (instrs : List Instr) :
    (∀ p ∈ _get_base_class_names lasti instrs, p ≠ [])
      ∧ ((∀ i ∈ instrs, hasnameOp i.opname = false) →
          _get_base_class_names lasti instrs = [])
      ∧ (∀ p ∈ _get_base_class_names lasti instrs,
          ∀ (g : ObjGraph) (ns : Namespace),
          _get_base_class g p ns ≠ Except.error PyExn.indexError) := by
  refine ⟨?_, ?_, ?_⟩
  · exact aux_group_nonempty _ [] [] (by simp)
  · intro hall
    unfold _get_base_class_names
    rw [aux_scan_all_skipped lasti instrs [] true hall]
    rfl
  · intro p hp g ns
    have hne : p ≠ [] := aux_group_nonempty _ [] [] (by simp) p hp
    cases p with
    | nil => exact absurd rfl hne
    | cons c0 r =>
      simp only [_get_base_class]
      cases hrf : resolveFirst g ns c0 with
      | ok o => simp [hrf, Except.map]
      | error e =>
        simp only [hrf, Except.map]
        intro hc
        injection hc with hc2
        rw [hc2] at hrf
        exact aux_resolveFirst_ne_index g ns c0 hrf

/-- Witness for C10's conditional part: a sequence with a single
non-name-table instruction yields no paths. -/
theorem scanner_paths_nonempty_witness :
    _get_base_class_names 5 [⟨0, "POP_TOP", ""⟩] = [] :=
  (scanner_paths_nonempty_and_empty_on_no_name_instructions
    5 [⟨0, "POP_TOP", ""⟩]).2.1 (by decide)

end Overrides

namespace Overrides

/-- Claim C3 counterexample: a free-variable load (`LOAD_DEREF`, which
CPython keeps out of `dis.hasname`) is a bare-identifier load per the spec,
yet the scanner ignores it entirely and starts no path, while the
specification's automaton would produce the path `["Base"]`. -/
theorem scanner_free_variable_load_counterexample :
    specIsBareIdentifierLoad ⟨0, "LOAD_DEREF", "Base"⟩ = true
      ∧ _get_base_class_names 100 [⟨0, "LOAD_DEREF", "Base"⟩] = []
      ∧ specScanItems 100 [⟨0, "LOAD_DEREF", "Base"⟩] = [["Base"]] :=
  ⟨rfl, rfl, rfl⟩

/-- Claim C3 (amended): a `LOAD_NAME` or `LOAD_GLOBAL` instruction (the
name-table bare-identifier loads; free-variable loads are not name-table
instructions and are skipped) emits a name token that starts a new dotted
path after flushing the open one, and `LOAD_ATTR` emits an attr token that
appends its name to the open path; shown both at the token-emission and the
grouping level, with an end-to-end instance. -/
theorem scanner_name_and_attr_load_steps
    (lasti : Nat) (i : Instr) (rest : List Instr) (exts : List Tok) :
    (i.offset ≤ lasti →
      ((i.opname = "LOAD_NAME" ∨ i.opname = "LOAD_GLOBAL") →
        scanLoop lasti (i :: rest) exts true
          = scanLoop lasti rest (exts ++ [(TokTag.name, i.argval)]) true)
      ∧ (i.opname = "LOAD_ATTR" →
        scanLoop lasti (i :: rest) exts true
          = scanLoop lasti rest (exts ++ [(TokTag.attr, i.argval)]) true))
    ∧ (∀ (s : String) (rest2 : List Tok) (prev : List String)
        (items : List (List String)),
        groupLoop ((TokTag.name, s) :: rest2) prev items
            = groupLoop rest2 [s] (flushInto items prev)
          ∧ groupLoop ((TokTag.attr, s) :: rest2) prev items
            = groupLoop rest2 (prev ++ [s]) items)
    ∧ (∀ a b c : String,
        _get_base_class_names 10
          [⟨0, "LOAD_NAME", a⟩, ⟨1, "LOAD_ATTR", b⟩, ⟨2, "LOAD_NAME", c⟩]
          = [[a, b], [c]]) := by
  refine ⟨?_, fun s rest2 prev items => ⟨rfl, rfl⟩, fun a b c => rfl⟩
  intro hle
  constructor
  · intro hname
    cases hname with
    | inl hn =>
      have hA : hasnameOp "LOAD_NAME" = true := by decide
      simp [scanLoop, Nat.not_lt.mpr hle, hn, hA]
    | inr hn =>
      have hA : hasnameOp "LOAD_GLOBAL" = true := by decide
      simp [scanLoop, Nat.not_lt.mpr hle, hn, hA]
  · intro hn
    have hA : hasnameOp "LOAD_ATTR" = true := by decide
    simp [scanLoop, Nat.not_lt.mpr hle, hn, hA]

end Overrides

namespace Overrides

/-- Witness for C3's amended statement at concrete instructions. -/
theorem scanner_name_and_attr_load_steps_witness :
    scanLoop 10 [⟨0, "LOAD_NAME", "A"⟩] [] true
        = scanLoop 10 [] [(TokTag.name, "A")] true
      ∧ groupLoop [(TokTag.attr, "b")] ["a"] []
        = groupLoop [] ["a", "b"] []
      ∧ _get_base_class_names 10
          [⟨0, "LOAD_NAME", "A"⟩, ⟨1, "LOAD_ATTR", "b"⟩, ⟨2, "LOAD_NAME", "C"⟩]
          = [["A", "b"], ["C"]] := by
  have h := scanner_name_and_attr_load_steps 10 ⟨0, "LOAD_NAME", "A"⟩ [] []
  exact ⟨(h.1 (by decide)).1 (Or.inl rfl), (h.2.1 "b" [] ["a"] []).2,
    h.2.2 "A" "b" "C"⟩

/-- Claim C4 counterexample: after `LOAD_NAME A`, `LOAD_NAME B`, an
invalidating `STORE_NAME`, then `LOAD_NAME C`, the code discards the whole
accumulated token list — including the already-completed path `["A"]` —
whereas the specification's automaton keeps the completed paths and yields
`[["A"], ["B"], ["C"]]`. -/
theorem scanner_invalidation_discards_completed_paths_counterexample :
    _get_base_class_names 100
        [⟨0, "LOAD_NAME", "A"⟩, ⟨1, "LOAD_NAME", "B"⟩,
          ⟨2, "STORE_NAME", "x"⟩, ⟨3, "LOAD_NAME", "C"⟩] = [["C"]]
      ∧ specScanItems 100
        [⟨0, "LOAD_NAME", "A"⟩, ⟨1, "LOAD_NAME", "B"⟩,
          ⟨2, "STORE_NAME", "x"⟩, ⟨3, "LOAD_NAME", "C"⟩]
        = [["A"], ["B"], ["C"]]
      ∧ ["A"] ∉ _get_base_class_names 100
        [⟨0, "LOAD_NAME", "A"⟩, ⟨1, "LOAD_NAME", "B"⟩,
          ⟨2, "STORE_NAME", "x"⟩, ⟨3, "LOAD_NAME", "C"⟩]
      ∧ ["A"] ∈ specScanItems 100
        [⟨0, "LOAD_NAME", "A"⟩, ⟨1, "LOAD_NAME", "B"⟩,
          ⟨2, "STORE_NAME", "x"⟩, ⟨3, "LOAD_NAME", "C"⟩] :=
  ⟨rfl, rfl, by decide, by decide⟩

/-- Claim C4 (amended): a name-table instruction that is none of the three
load forms only clears the `add_last_step` flag; the discard happens at the
next name-table instruction, which drops the entire accumulated token list —
open and completed paths alike — before being processed; when no name-table
instruction follows, the accumulated tokens are all kept, and instructions
outside the name table never touch the accumulator or the flag. -/
theorem scanner_invalidation_wholesale_steps
    (lasti : Nat) (i j k : Instr) (rest : List Instr) (exts : List Tok)
    (als : Bool) :
    (i.offset ≤ lasti → hasnameOp i.opname = true →
      i.opname ≠ "LOAD_NAME" → i.opname ≠ "LOAD_ATTR" →
      i.opname ≠ "LOAD_GLOBAL" →
      scanLoop lasti (i :: rest) exts true = scanLoop lasti rest exts false)
    ∧ (j.offset ≤ lasti → hasnameOp j.opname = true →
      scanLoop lasti (j :: rest) exts false
        = scanLoop lasti (j :: rest) [] true)
    ∧ scanLoop lasti [] exts false = exts
    ∧ (k.offset ≤ lasti → hasnameOp k.opname = false →
      scanLoop lasti (k :: rest) exts als = scanLoop lasti rest exts als) := by
  refine ⟨?_, ?_, rfl, ?_⟩
  · intro hle hhas hn1 hn2 hn3
    simp [scanLoop, Nat.not_lt.mpr hle, hhas, hn1, hn2, hn3]
  · intro hle hhas
    simp [scanLoop, Nat.not_lt.mpr hle, hhas]
  · intro hle hk
    simp [scanLoop, Nat.not_lt.mpr hle, hk]

/-- Witness for C4's amended statement at concrete instructions: the
`STORE_NAME` only clears the flag, and the following `LOAD_NAME` drops the
accumulated tokens. -/
theorem scanner_invalidation_wholesale_steps_witness :
    scanLoop 10 [⟨2, "STORE_NAME", "x"⟩] [(TokTag.name, "A")] true
        = scanLoop 10 [] [(TokTag.name, "A")] false
      ∧ scanLoop 10 [⟨3, "LOAD_NAME", "C"⟩] [(TokTag.name, "A")] false
        = scanLoop 10 [⟨3, "LOAD_NAME", "C"⟩] [] true
      ∧ scanLoop 10 [] [(TokTag.name, "A")] false = [(TokTag.name, "A")] := by
  have h1 := scanner_invalidation_wholesale_steps 10 ⟨2, "STORE_NAME", "x"⟩
    ⟨3, "LOAD_NAME", "C"⟩ ⟨0, "POP_TOP", ""⟩ [] [(TokTag.name, "A")] false
  exact ⟨h1.1 (by decide) (by decide) (by decide) (by decide) (by decide),
    h1.2.1 (by decide) (by decide), h1.2.2.1⟩

end Overrides
